import Mathlib

/-!
Verification of the CTF per-deploy lease manager (flask_app).

This file shallowly embeds the port registry, lease store, rate limiter,
admission pipeline and destruction sequence of the repository and proves
the specification claims about them.

Python strings are embedded as lists of characters (`Str`), so that every
string operation the code performs (prefix tests, splitting on a dot,
integer parsing) is an executable Lean function the kernel can evaluate.
Database tables are embedded as lists of row structures mirroring the
SQL schema created in flask_app/database.py: `containers`, `ip_requests`
and `port_allocations`.  Each SQL statement of the source becomes a pure
function on those lists; a transaction is a single atomic function
application (the code's allocation transaction holds a row-level
exclusive lock from `SELECT ... FOR UPDATE SKIP LOCKED` to `COMMIT`, so
any interleaving of allocators is equivalent to a sequence of atomic
steps).
-/

namespace CTF

/-- Embedding of a Python string as its list of characters. -/
abbrev Str := List Char

/-- Turn a Lean string literal into the embedded representation. -/
def str (s : String) : Str := s.toList

/-- Embedding of Python `s.split('.')` (used by `is_local_network`). -/
def splitOnDot : Str → List Str
  | [] => [[]]
  | c :: rest =>
    let r := splitOnDot rest
    if c = '.' then [] :: r
    else
      match r with
      | [] => [[c]]
      | h :: t => (c :: h) :: t

/-- Embedding of Python `int(s)` on the digit strings that occur in
dotted-quad addresses: a non-empty all-digit string parses to its value,
anything else raises `ValueError`, modelled as `none`. -/
def pyNat? (s : Str) : Option Nat :=
  if s = [] then none
  else if s.all (fun c => c.isDigit) then
    some (s.foldl (fun acc c => acc * 10 + (c.toNat - '0'.toNat)) 0)
  else none

/-- One row of the `port_allocations` table
(`port PK, allocated BOOL, container_id NULL, allocated_time NULL`). -/
structure PortRow where
  port : Nat
  allocated : Bool
  container_id : Option Str
  allocated_time : Option Int
deriving DecidableEq

/-- One row of the `containers` table
(`id PK, port, start_time, expiration_time, user_uuid, ip_address`). -/
structure ContainerRow where
  id : Str
  port : Nat
  start_time : Int
  expiration_time : Int
  user_uuid : Str
  ip_address : Str
deriving DecidableEq

/-- One row of the `ip_requests` table (`ip_address, request_time`). -/
structure IpRequestRow where
  ip_address : Str
  request_time : Int
deriving DecidableEq

/-- The `WHERE allocated = FALSE {AND port NOT IN (...)}` filter of the
selection query in `database.allocate_port`. -/
def freeNonBlocked (blocked : List Nat) (r : PortRow) : Bool :=
  !r.allocated && !blocked.contains r.port

/-- Embedding of the selection query of `database.allocate_port`:
`SELECT port FROM port_allocations WHERE allocated = FALSE [AND port
NOT IN blocked] ORDER BY port LIMIT 1 FOR UPDATE SKIP LOCKED` — the
lowest-numbered free, non-blocked port, if any. -/
def selectFreePort (tbl : List PortRow) (blocked : List Nat) : Option Nat :=
  match tbl with
  | [] => none
  | r :: rest =>
    let tail := selectFreePort rest blocked
    if freeNonBlocked blocked r then
      match tail with
      | none => some r.port
      | some q => some (min r.port q)
    else tail

/-- Embedding of the `UPDATE port_allocations SET allocated = TRUE,
container_id = %s, allocated_time = %s WHERE port = %s` statement of
`database.allocate_port`. -/
def markAllocated (tbl : List PortRow) (p : Nat) (cid : Option Str) (now : Int) :
    List PortRow :=
  tbl.map (fun r =>
    if r.port = p then
      { r with allocated := true, container_id := cid, allocated_time := some now }
    else r)

/-- One loop iteration of `database.allocate_port`: a single transaction
that selects the lowest free non-blocked port under a row lock and marks
it allocated, or rolls back (leaving the table unchanged) when no row is
returned. -/
def allocate_attempt (cid : Option Str) (blocked : List Nat) (now : Int)
    (tbl : List PortRow) : Option Nat × List PortRow :=
  match selectFreePort tbl blocked with
  | none => (none, tbl)
  | some p => (some p, markAllocated tbl p cid now)

/-- Embedding of `database.allocate_port`: up to `maxAttempts` loop
iterations (`while attempt < max_attempts`); a successful attempt
returns the port and commits, an empty selection rolls back, sleeps and
retries; exhaustion returns `None`. -/
def allocate_port (maxAttempts : Nat) (cid : Option Str) (blocked : List Nat)
    (now : Int) (tbl : List PortRow) : Option Nat × List PortRow :=
  match maxAttempts with
  | 0 => (none, tbl)
  | Nat.succ n =>
    match allocate_attempt cid blocked now tbl with
    | (none, _) => allocate_port n cid blocked now tbl
    | (some p, tbl2) => (some p, tbl2)

/-- Embedding of `database.release_port`: `if not port: return False`,
then `UPDATE port_allocations SET allocated = FALSE, container_id =
NULL, allocated_time = NULL WHERE port = %s` and return `True`.  The
argument is `Option Nat` because the Python caller may pass `None`; both
`None` and `0` are falsy. -/
def release_port (port : Option Nat) (tbl : List PortRow) : Bool × List PortRow :=
  match port with
  | none => (false, tbl)
  | some p =>
    if p = 0 then (false, tbl)
    else
      (true,
       tbl.map (fun r =>
         if r.port = p then
           { r with allocated := false, container_id := none, allocated_time := none }
         else r))

/-- The stale-row filter of `database.cleanup_stale_port_allocations`:
`p.allocated = TRUE AND p.allocated_time < cutoff AND c.id IS NULL`
after `LEFT JOIN containers c ON p.container_id = c.id`.  A `NULL`
`allocated_time` never satisfies `< cutoff`; a `NULL` `container_id`
never joins, so such a row always has `c.id IS NULL`. -/
def isStale (cutoff : Int) (containers : List ContainerRow) (r : PortRow) : Bool :=
  r.allocated &&
  (match r.allocated_time with
   | some t => decide (t < cutoff)
   | none => false) &&
  (match r.container_id with
   | none => true
   | some cid => !(containers.any (fun c => decide (c.id = cid))))

/-- Embedding of `database.cleanup_stale_port_allocations`: compute
`cutoff = now - STALE_PORT_MAX_AGE`, select the stale rows, then call
`release_port` on each selected port. -/
def cleanup_stale_port_allocations (now maxAge : Int) (tbl : List PortRow)
    (containers : List ContainerRow) : List PortRow :=
  let cutoff := now - maxAge
  let stale := (tbl.filter (isStale cutoff containers)).map PortRow.port
  stale.foldl (fun t p => (release_port (some p) t).2) tbl

/-- The `SELECT COUNT(*) FROM ip_requests WHERE ip_address = %s AND
request_time > %s` query of `database.check_ip_rate_limit`. -/
def count_recent_requests (reqs : List IpRequestRow) (ip : Str) (cutoff : Int) : Nat :=
  (reqs.filter (fun r => decide (r.ip_address = ip) && decide (r.request_time > cutoff))).length

/-- The `SELECT COUNT(*) FROM containers WHERE ip_address = %s` query of
`database.check_ip_rate_limit`. -/
def count_active_containers (containers : List ContainerRow) (ip : Str) : Nat :=
  (containers.filter (fun c => decide (c.ip_address = ip))).length

/-- Embedding of the body of `database.check_ip_rate_limit` with the
store interactions made explicit.  The whole body runs inside a
`try/except` whose handler returns `False`, so a raised store error
(`Except.error`) makes the function report not-limited.  Arguments:
the two count queries, whether the 10% probabilistic prune fired
(`random.random() < 0.1`), and the prune statement's result. -/
def check_ip_rate_limit_run (ip : Str) (maxRequests : Nat)
    (requestCountQ activeCountQ : Except Unit Nat)
    (doPrune : Bool) (pruneQ : Except Unit Unit) : Bool :=
  match (do
      if ip = [] ∨ ip = str "127.0.0.1" then
        pure false
      else do
        let requestCount ← requestCountQ
        let activeCount ← activeCountQ
        let totalCount := requestCount + activeCount
        if doPrune then do
          let _ ← pruneQ
          pure (decide (totalCount ≥ maxRequests))
        else
          pure (decide (totalCount ≥ maxRequests))
      : Except Unit Bool) with
  | Except.ok b => b
  | Except.error _ => false

/-- Embedding of `database.check_ip_rate_limit` on a fault-free store:
the two counts are drawn from the table contents
(`cutoff = now - time_window`) and no statement raises.  The
probabilistic prune only deletes rows already outside the counting
window and does not change the verdict, so it is instantiated as not
fired here. -/
def check_ip_rate_limit (ip : Str) (now timeWindow : Int) (maxRequests : Nat)
    (reqs : List IpRequestRow) (containers : List ContainerRow) : Bool :=
  check_ip_rate_limit_run ip maxRequests
    (Except.ok (count_recent_requests reqs ip (now - timeWindow)))
    (Except.ok (count_active_containers containers ip))
    false (Except.ok ())

/-- Embedding of the `try: second_octet = int(ip_address.split('.')[1])`
block of `routes.is_local_network`: true exactly when the second octet
parses and lies in 16–31 (`ValueError`/`IndexError` ignored).  RFC1918
uses the same 172.16–172.31 block, so the spec-side `isRFC1918Addr`
reuses this test. -/
def second_octet_private (ip : Str) : Bool :=
  match (splitOnDot ip).drop 1 with
  | [] => false
  | octet :: _ =>
    match pyNat? octet with
    | some n => decide (16 ≤ n ∧ n ≤ 31)
    | none => false

/-- Embedding of `routes.is_local_network`: localhost literals, the
`10.`, `192.168.` prefixes, and `172.` with second octet 16–31. -/
def is_local_network (ip : Str) : Bool :=
  if ip = [] then false
  else if ip = str "127.0.0.1" ∨ ip = str "localhost" ∨ ip = str "::1" then true
  else if List.isPrefixOf (str "10.") ip then true
  else if List.isPrefixOf (str "192.168.") ip then true
  else if List.isPrefixOf (str "172.") ip then second_octet_private ip
  else false

/-- Embedding of `routes.check_admin_auth` (the authorization boolean):
a non-empty `admin_key` equal to the configured key passes, otherwise
the request must come from a local network (when `admin_only`). -/
def check_admin_auth (admin_key expected_admin_key remote_addr : Str)
    (admin_only : Bool) : Bool :=
  if admin_key ≠ [] ∧ admin_key = expected_admin_key then true
  else if !admin_only || is_local_network remote_addr then true
  else false

/-- Embedding of the inline authorization check of `routes.admin_status`:
`is_localhost or remote_addr.startswith('172.')` or `admin_key ==
expected_admin_key`; otherwise the endpoint answers 403. -/
def admin_status_authorized (admin_key expected_admin_key remote_addr : Str) : Bool :=
  let is_localhost :=
    remote_addr = str "127.0.0.1" ∨ remote_addr = str "localhost" ∨ remote_addr = str "::1"
  let is_docker_network := List.isPrefixOf (str "172.") remote_addr
  if ¬(is_localhost ∨ is_docker_network) ∧ admin_key ≠ expected_admin_key then false
  else true

/-- Modelled from the spec: a loopback source address (the 127.0.0.0/8
block, or IPv6 `::1`).  Used only to state claims about which sources
the code ought to treat as local. -/
def isLoopbackAddr (ip : Str) : Bool :=
  List.isPrefixOf (str "127.") ip || ip = str "::1"

/-- Modelled from the spec: an address inside an RFC1918 private range
(10.0.0.0/8, 172.16.0.0/12, or 192.168.0.0/16).  Used only to state
claims about which sources the code ought to treat as local. -/
def isRFC1918Addr (ip : Str) : Bool :=
  List.isPrefixOf (str "10.") ip ||
  List.isPrefixOf (str "192.168.") ip ||
  (List.isPrefixOf (str "172.") ip && second_octet_private ip)

/-- The rejection (or pass) produced by the admission prefix of
`routes.deploy_container`, i.e. everything up to and including the
CAPTCHA stage. -/
inductive DeployOutcome where
  | sessionError
  | rateLimited
  | invalidRequestFormat
  | captchaRequired
  | captchaIncorrect
  | proceed
deriving DecidableEq

/-- The result of the admission prefix of `routes.deploy_container`,
together with which collaborators were consulted on the way. -/
structure AdmissionTrace where
  outcome : DeployOutcome
  rateLimitChecked : Bool
  captchaChecked : Bool
deriving DecidableEq

/-- Embedding of the admission prefix of `routes.deploy_container`
(steps 1–3 of the handler): cookie check, then
`check_ip_rate_limit(remote_ip)`, then JSON parsing, then — unless
`BYPASS_CAPTCHA` — presence and validation of the CAPTCHA answer.
`captchaValid` stands for the result of `validate_captcha`; the two
`Option Str` arguments are `none` when the field is missing or empty
(Python falsiness). -/
def deploy_admission (user_uuid : Option Str) (remote_ip : Str) (hasJson : Bool)
    (captcha_id captcha_answer : Option Str) (bypassCaptcha captchaValid : Bool)
    (now timeWindow : Int) (maxRequests : Nat)
    (reqs : List IpRequestRow) (containers : List ContainerRow) : AdmissionTrace :=
  match user_uuid with
  | none => ⟨DeployOutcome.sessionError, false, false⟩
  | some _ =>
    if check_ip_rate_limit remote_ip now timeWindow maxRequests reqs containers then
      ⟨DeployOutcome.rateLimited, true, false⟩
    else if !hasJson then
      ⟨DeployOutcome.invalidRequestFormat, true, false⟩
    else if !bypassCaptcha then
      match captcha_id, captcha_answer with
      | some _, some _ =>
        if !captchaValid then ⟨DeployOutcome.captchaIncorrect, true, true⟩
        else ⟨DeployOutcome.proceed, true, true⟩
      | _, _ => ⟨DeployOutcome.captchaRequired, true, false⟩
    else ⟨DeployOutcome.proceed, true, false⟩

/-- Embedding of `routes.extend_container_lifetime` after the session
check: `SELECT id, expiration_time FROM containers WHERE user_uuid = %s`
(first matching row), then `UPDATE containers SET expiration_time =
expiration_time + ADD_TIME WHERE id = %s`.  Returns the announced
`new_expiration_time` and the updated table. -/
def extend_container_lifetime (add_time : Int) (user_uuid : Str)
    (containers : List ContainerRow) : Option Int × List ContainerRow :=
  match containers.find? (fun c => decide (c.user_uuid = user_uuid)) with
  | none => (none, containers)
  | some c =>
    let new_expiration_time := c.expiration_time + add_time
    (some new_expiration_time,
     containers.map (fun r =>
       if r.id = c.id then { r with expiration_time := new_expiration_time } else r))

/-- N successive calls of `extend_container_lifetime` by the same owner. -/
def extendN (add_time : Int) (user_uuid : Str) :
    Nat → List ContainerRow → List ContainerRow
  | 0, containers => containers
  | Nat.succ n, containers =>
    (extend_container_lifetime add_time user_uuid
      (extendN add_time user_uuid n containers)).2

/-- What one call of `cleanup_manager.remove_container` observes:
whether the runtime still knew the handle, how many lease rows the
`DELETE` affected, and whether the call returned success. -/
structure RemoveOutcome where
  found_in_docker : Bool
  rows_deleted : Nat
  ok : Bool
deriving DecidableEq

/-- The state the destruction sequence acts on: the runtime's set of
container handles, the `port_allocations` table and the `containers`
table. -/
structure SystemState where
  docker_containers : List Str
  port_allocations : List PortRow
  containers : List ContainerRow
deriving DecidableEq

/-- Embedding of `cleanup_manager.remove_container`: force-remove the
runtime handle (`NotFound` tolerated), then `UPDATE port_allocations SET
allocated = FALSE, container_id = NULL, allocated_time = NULL WHERE port
= %s`, then `DELETE FROM containers WHERE id = %s`, then return `True`. -/
def remove_container (container_id : Str) (port : Nat) (st : SystemState) :
    RemoveOutcome × SystemState :=
  let found := st.docker_containers.any (fun h => decide (h = container_id))
  let docker2 := st.docker_containers.filter (fun h => !decide (h = container_id))
  let ports2 := st.port_allocations.map (fun r =>
    if r.port = port then
      { r with allocated := false, container_id := none, allocated_time := none }
    else r)
  let deleted := (st.containers.filter (fun c => decide (c.id = container_id))).length
  let containers2 := st.containers.filter (fun c => !decide (c.id = container_id))
  (⟨found, deleted, true⟩, ⟨docker2, ports2, containers2⟩)

/-- Some row of the table offers port `p` for allocation. -/
def port_free_in (tbl : List PortRow) (p : Nat) : Prop :=
  ∃ r ∈ tbl, r.port = p ∧ r.allocated = false

/-- One interleaved schedule of concurrent `allocate_port` transactions:
each list entry is one atomic allocation attempt (holder, blocked set)
by some caller; the attempts execute in schedule order against the
shared `port_allocations` table.  Because every attempt in the source
holds a row-level exclusive lock from its `SELECT ... FOR UPDATE SKIP
LOCKED` to its `COMMIT`, every interleaving of concurrent allocators is
observationally equal to such a serialized schedule. -/
def run_concurrent_allocates (now : Int) :
    List (Option Str × List Nat) → List PortRow → List (Option Nat) × List PortRow
  | [], tbl => ([], tbl)
  | caller :: rest, tbl =>
    let step := allocate_attempt caller.1 caller.2 now tbl
    let tail := run_concurrent_allocates now rest step.2
    (step.1 :: tail.1, tail.2)

/-! Helper lemmas about the port-selection query. -/

theorem freeNonBlocked_iff (blocked : List Nat) (r : PortRow) :
    freeNonBlocked blocked r = true ↔ r.allocated = false ∧ r.port ∉ blocked := by
  simp [freeNonBlocked]

theorem selectFreePort_mem {tbl : List PortRow} {blocked : List Nat} {p : Nat}
    (h : selectFreePort tbl blocked = some p) :
    ∃ r ∈ tbl, r.port = p ∧ freeNonBlocked blocked r = true := by
  induction tbl generalizing p with
  | nil => simp [selectFreePort] at h
  | cons r rest ih =>
    rw [selectFreePort] at h
    by_cases hr : freeNonBlocked blocked r = true
    · rw [if_pos hr] at h
      cases htail : selectFreePort rest blocked with
      | none =>
        rw [htail] at h
        simp only [Option.some.injEq] at h
        exact ⟨r, by simp, h ▸ rfl, hr⟩
      | some q =>
        rw [htail] at h
        simp only [Option.some.injEq] at h
        rcases Nat.le_total r.port q with hle | hle
        · refine ⟨r, by simp, ?_, hr⟩
          omega
        · obtain ⟨r2, hr2, hport, hfree⟩ := ih htail
          refine ⟨r2, by simp [hr2], ?_, hfree⟩
          omega
    · rw [if_neg hr] at h
      obtain ⟨r2, hr2, hport, hfree⟩ := ih h
      exact ⟨r2, by simp [hr2], hport, hfree⟩

theorem selectFreePort_none {tbl : List PortRow} {blocked : List Nat}
    (h : selectFreePort tbl blocked = none) :
    ∀ r ∈ tbl, freeNonBlocked blocked r = false := by
  induction tbl with
  | nil => simp
  | cons r rest ih =>
    rw [selectFreePort] at h
    intro r2 hr2
    by_cases hr : freeNonBlocked blocked r = true
    · rw [if_pos hr] at h
      cases htail : selectFreePort rest blocked with
      | none => rw [htail] at h; exact absurd h (by simp)
      | some q => rw [htail] at h; exact absurd h (by simp)
    · rw [if_neg hr] at h
      rcases List.mem_cons.mp hr2 with heq | hmem
      · subst heq; exact Bool.eq_false_iff.mpr hr
      · exact ih h r2 hmem

theorem selectFreePort_min {tbl : List PortRow} {blocked : List Nat} {p : Nat}
    (h : selectFreePort tbl blocked = some p) :
    ∀ r ∈ tbl, freeNonBlocked blocked r = true → p ≤ r.port := by
  induction tbl generalizing p with
  | nil => simp
  | cons r rest ih =>
    rw [selectFreePort] at h
    intro r2 hr2 hfree
    by_cases hr : freeNonBlocked blocked r = true
    · rw [if_pos hr] at h
      cases htail : selectFreePort rest blocked with
      | none =>
        rw [htail] at h
        simp only [Option.some.injEq] at h
        rcases List.mem_cons.mp hr2 with heq | hmem
        · subst heq; omega
        · exact absurd hfree (by simp [selectFreePort_none htail r2 hmem])
      | some q =>
        rw [htail] at h
        simp only [Option.some.injEq] at h
        rcases List.mem_cons.mp hr2 with heq | hmem
        · subst heq; omega
        · have := ih htail r2 hmem hfree
          omega
    · rw [if_neg hr] at h
      rcases List.mem_cons.mp hr2 with heq | hmem
      · subst heq; exact absurd hfree hr
      · exact ih h r2 hmem hfree

theorem selectFreePort_isSome {tbl : List PortRow} {blocked : List Nat}
    (h : ∃ r ∈ tbl, freeNonBlocked blocked r = true) :
    ∃ p, selectFreePort tbl blocked = some p := by
  cases hsel : selectFreePort tbl blocked with
  | none =>
    obtain ⟨r, hr, hfree⟩ := h
    exact absurd hfree (by simp [selectFreePort_none hsel r hr])
  | some p => exact ⟨p, rfl⟩

/-! Helper lemmas about the allocation loop and concurrent allocators. -/

theorem allocate_port_of_select_none {tbl : List PortRow} {blocked : List Nat}
    (h : selectFreePort tbl blocked = none) (maxAttempts : Nat) (cid : Option Str)
    (now : Int) : allocate_port maxAttempts cid blocked now tbl = (none, tbl) := by
  induction maxAttempts with
  | zero => rfl
  | succ n ih => rw [allocate_port, allocate_attempt, h, ih]

theorem allocate_port_of_select_some {tbl : List PortRow} {blocked : List Nat} {p : Nat}
    (h : selectFreePort tbl blocked = some p) {maxAttempts : Nat}
    (hpos : 0 < maxAttempts) (cid : Option Str) (now : Int) :
    allocate_port maxAttempts cid blocked now tbl = (some p, markAllocated tbl p cid now) := by
  cases maxAttempts with
  | zero => exact absurd hpos (by simp)
  | succ n => rw [allocate_port, allocate_attempt, h]

theorem allocate_attempt_free {cid : Option Str} {blocked : List Nat} {now : Int}
    {tbl tbl2 : List PortRow} {p : Nat}
    (h : allocate_attempt cid blocked now tbl = (some p, tbl2)) :
    port_free_in tbl p := by
  rw [allocate_attempt] at h
  cases hsel : selectFreePort tbl blocked with
  | none => rw [hsel] at h; exact absurd h (by simp)
  | some q =>
    rw [hsel] at h
    simp only [Prod.mk.injEq, Option.some.injEq] at h
    obtain ⟨r, hr, hport, hfree⟩ := selectFreePort_mem hsel
    exact ⟨r, hr, h.1 ▸ hport, ((freeNonBlocked_iff blocked r).mp hfree).1⟩

theorem markAllocated_not_free {tbl : List PortRow} {p : Nat} {cid : Option Str}
    {now : Int} : ¬ port_free_in (markAllocated tbl p cid now) p := by
  rintro ⟨r2, hr2, hport, hfree⟩
  rw [markAllocated] at hr2
  obtain ⟨r, _, hmap⟩ := List.mem_map.mp hr2
  by_cases hrp : r.port = p
  · rw [if_pos hrp] at hmap
    rw [← hmap] at hfree
    exact absurd hfree (by simp)
  · rw [if_neg hrp] at hmap
    rw [← hmap] at hport
    exact hrp hport

theorem markAllocated_preserves_not_free {tbl : List PortRow} {p q : Nat}
    {cid : Option Str} {now : Int} (hnf : ¬ port_free_in tbl p) :
    ¬ port_free_in (markAllocated tbl q cid now) p := by
  rintro ⟨r2, hr2, hport, hfree⟩
  rw [markAllocated] at hr2
  obtain ⟨r, hr, hmap⟩ := List.mem_map.mp hr2
  by_cases hrq : r.port = q
  · rw [if_pos hrq] at hmap
    rw [← hmap] at hfree
    exact absurd hfree (by simp)
  · rw [if_neg hrq] at hmap
    subst hmap
    exact hnf ⟨r, hr, hport, hfree⟩

theorem allocate_attempt_preserves_not_free {cid : Option Str} {blocked : List Nat}
    {now : Int} {tbl : List PortRow} {p : Nat} (hnf : ¬ port_free_in tbl p) :
    ¬ port_free_in (allocate_attempt cid blocked now tbl).2 p := by
  rw [allocate_attempt]
  cases hsel : selectFreePort tbl blocked with
  | none => exact hnf
  | some q => exact markAllocated_preserves_not_free hnf

theorem allocate_attempt_not_free_after {cid : Option Str} {blocked : List Nat}
    {now : Int} {tbl tbl2 : List PortRow} {p : Nat}
    (h : allocate_attempt cid blocked now tbl = (some p, tbl2)) :
    ¬ port_free_in tbl2 p := by
  rw [allocate_attempt] at h
  cases hsel : selectFreePort tbl blocked with
  | none => rw [hsel] at h; exact absurd h (by simp)
  | some q =>
    rw [hsel] at h
    simp only [Prod.mk.injEq, Option.some.injEq] at h
    rw [← h.2, ← h.1]
    exact markAllocated_not_free

theorem run_concurrent_allocates_not_returned {now : Int}
    {callers : List (Option Str × List Nat)} {tbl : List PortRow} {p : Nat}
    (hnf : ¬ port_free_in tbl p) :
    some p ∉ (run_concurrent_allocates now callers tbl).1 := by
  induction callers generalizing tbl with
  | nil => simp [run_concurrent_allocates]
  | cons caller rest ih =>
    rw [run_concurrent_allocates]
    intro hmem
    rcases List.mem_cons.mp hmem with heq | hmem2
    · cases hstep : allocate_attempt caller.1 caller.2 now tbl with
      | mk res tbl2 =>
        rw [hstep] at heq
        simp only at heq
        rw [← heq] at hstep
        exact hnf (allocate_attempt_free hstep)
    · exact ih (allocate_attempt_preserves_not_free hnf) hmem2

/-- C1: under any interleaving of concurrently executing `allocate_port`
transactions (serialized here as an arbitrary schedule of atomic
attempts, which is faithful because each attempt holds a row-level
exclusive lock from `SELECT ... FOR UPDATE SKIP LOCKED` to `COMMIT`),
the ports handed out are pairwise distinct: every attempt either
returns a port no other attempt returns, or returns `none`
(NONE_AVAILABLE).  Since one `allocate_port` call returns the port of
its unique successful attempt, no two callers ever receive the same
port. -/
theorem allocate_concurrent_distinct_ports (now : Int)
    (callers : List (Option Str × List Nat)) (tbl : List PortRow) :
    ((run_concurrent_allocates now callers tbl).1.filterMap id).Nodup := by
  induction callers generalizing tbl with
  | nil => simp [run_concurrent_allocates]
  | cons caller rest ih =>
    rw [run_concurrent_allocates]
    cases hstep : allocate_attempt caller.1 caller.2 now tbl with
    | mk res tbl2 =>
      cases res with
      | none => simpa using ih tbl2
      | some p =>
        simp only [List.filterMap_cons, id_eq, List.nodup_cons]
        refine ⟨?_, ih tbl2⟩
        intro hmem
        obtain ⟨a, ha, hap⟩ := List.mem_filterMap.mp hmem
        simp only [id_eq] at hap
        subst hap
        exact run_concurrent_allocates_not_returned
          (allocate_attempt_not_free_after hstep) ha

/-- C6: with a positive attempt budget, `allocate_port` returns the
lowest-numbered port whose slot is free and not blocked, updating
exactly that slot to allocated with the given holder and
`allocated_time = now` (`markAllocated`); when no free non-blocked slot
exists it returns `none` after exhausting its attempts and leaves the
table unchanged. -/
theorem allocate_port_lowest_free_or_none (maxAttempts : Nat) (cid : Option Str)
    (blocked : List Nat) (now : Int) (tbl : List PortRow)
    (hpos : 0 < maxAttempts) :
    ((∃ r ∈ tbl, r.allocated = false ∧ r.port ∉ blocked) →
      ∃ p, (∃ r ∈ tbl, r.port = p ∧ r.allocated = false ∧ p ∉ blocked) ∧
        (∀ r ∈ tbl, r.allocated = false → r.port ∉ blocked → p ≤ r.port) ∧
        allocate_port maxAttempts cid blocked now tbl =
          (some p, markAllocated tbl p cid now)) ∧
    ((∀ r ∈ tbl, r.allocated = true ∨ r.port ∈ blocked) →
      allocate_port maxAttempts cid blocked now tbl = (none, tbl)) := by
  constructor
  · rintro ⟨r, hr, halloc, hblocked⟩
    obtain ⟨p, hsel⟩ := selectFreePort_isSome
      ⟨r, hr, (freeNonBlocked_iff blocked r).mpr ⟨halloc, hblocked⟩⟩
    obtain ⟨r2, hr2, hport, hfree2⟩ := selectFreePort_mem hsel
    obtain ⟨halloc2, hblocked2⟩ := (freeNonBlocked_iff blocked r2).mp hfree2
    refine ⟨p, ⟨r2, hr2, hport, halloc2, hport ▸ hblocked2⟩, ?_, ?_⟩
    · intro r3 hr3 halloc3 hblocked3
      exact selectFreePort_min hsel r3 hr3
        ((freeNonBlocked_iff blocked r3).mpr ⟨halloc3, hblocked3⟩)
    · exact allocate_port_of_select_some hsel hpos cid now
  · intro hnone
    cases hsel : selectFreePort tbl blocked with
    | none => exact allocate_port_of_select_none hsel maxAttempts cid now
    | some p =>
      obtain ⟨r, hr, hport, hfree⟩ := selectFreePort_mem hsel
      obtain ⟨halloc, hblocked⟩ := (freeNonBlocked_iff blocked r).mp hfree
      rcases hnone r hr with h1 | h1
      · rw [halloc] at h1; exact absurd h1 (by simp)
      · exact absurd h1 hblocked

/-- C6 witness: on a concrete table with a blocked free port 9000, an
allocated port 9001 and a free port 9002, `allocate_port` hands out
9002 and marks it. -/
theorem allocate_port_lowest_free_or_none_witness :
    ∃ p, (∃ r ∈ [PortRow.mk 9001 true none (some 5), PortRow.mk 9000 false none none,
          PortRow.mk 9002 false none none], r.port = p ∧ r.allocated = false ∧ p ∉ [9000]) ∧
      (∀ r ∈ [PortRow.mk 9001 true none (some 5), PortRow.mk 9000 false none none,
          PortRow.mk 9002 false none none], r.allocated = false → r.port ∉ [9000] → p ≤ r.port) ∧
      allocate_port 5 none [9000] 100
          [PortRow.mk 9001 true none (some 5), PortRow.mk 9000 false none none,
           PortRow.mk 9002 false none none] =
        (some p, markAllocated
          [PortRow.mk 9001 true none (some 5), PortRow.mk 9000 false none none,
           PortRow.mk 9002 false none none] p none 100) :=
  (allocate_port_lowest_free_or_none 5 none [9000] 100
      [PortRow.mk 9001 true none (some 5), PortRow.mk 9000 false none none,
       PortRow.mk 9002 false none none] (by decide)).1 (by decide)

/-- C9: for a port in the configured range (positive, so not Python-falsy),
`release_port` reports success and clears exactly that port's slot
(allocated, holder and timestamp); on a slot that is already FREE with
cleared fields it changes nothing and still reports success, and the
operation is idempotent. -/
theorem release_port_success_and_idempotent (p : Nat) (tbl : List PortRow)
    (hp : 0 < p) :
    (release_port (some p) tbl).1 = true ∧
    (release_port (some p) tbl).2 = tbl.map (fun r =>
      if r.port = p then
        { r with allocated := false, container_id := none, allocated_time := none }
      else r) ∧
    ((∀ r ∈ tbl, r.port = p →
        r.allocated = false ∧ r.container_id = none ∧ r.allocated_time = none) →
      (release_port (some p) tbl).2 = tbl) ∧
    release_port (some p) (release_port (some p) tbl).2 = release_port (some p) tbl := by
  have hp0 : ¬ p = 0 := by omega
  refine ⟨by simp [release_port, hp0], by simp [release_port, hp0], ?_, ?_⟩
  · intro hfree
    simp only [release_port, hp0, if_false]
    induction tbl with
    | nil => rfl
    | cons r rest ih =>
      simp only [List.map_cons, List.cons.injEq]
      constructor
      · by_cases hrp : r.port = p
        · obtain ⟨h1, h2, h3⟩ := hfree r (by simp) hrp
          rw [if_pos hrp]
          cases r
          simp_all
        · rw [if_neg hrp]
      · exact ih (fun r2 hr2 hp2 => hfree r2 (by simp [hr2]) hp2)
  · simp only [release_port, hp0, if_false, List.map_map]
    refine Prod.ext rfl ?_
    simp only []
    induction tbl with
    | nil => rfl
    | cons r rest ih =>
      simp only [List.map_cons, List.cons.injEq]
      refine ⟨?_, ih⟩
      by_cases hrp : r.port = p
      · simp [Function.comp, hrp]
      · simp [Function.comp, hrp]

/-- C9 witness: releasing port 9000 from a concrete one-row table. -/
theorem release_port_success_and_idempotent_witness :
    (release_port (some 9000) [PortRow.mk 9000 true (some (str "c1")) (some 3)]).1 = true :=
  (release_port_success_and_idempotent 9000
    [PortRow.mk 9000 true (some (str "c1")) (some 3)] (by decide)).1

/-- C8: the destruction sequence of `cleanup_manager.remove_container`
(runtime force-remove tolerating NotFound, then port release, then
lease-row delete) is idempotent: a second application leaves the state
produced by the first unchanged, observes the handle as absent from the
runtime and a zero-row-affected DELETE, and still returns success. -/
theorem remove_container_idempotent (container_id : Str) (port : Nat)
    (st : SystemState) :
    (remove_container container_id port (remove_container container_id port st).2).2
        = (remove_container container_id port st).2 ∧
    (remove_container container_id port (remove_container container_id port st).2).1
        = ⟨false, 0, true⟩ := by
  constructor
  · simp only [remove_container, SystemState.mk.injEq]
    refine ⟨?_, ?_, ?_⟩
    · rw [List.filter_filter]
      apply List.filter_congr
      intro h _
      simp
    · rw [List.map_map]
      apply List.map_congr_left
      intro r _
      by_cases hrp : r.port = port
      · simp [Function.comp, hrp]
      · simp [Function.comp, hrp]
    · rw [List.filter_filter]
      apply List.filter_congr
      intro c _
      simp
  · simp only [remove_container, RemoveOutcome.mk.injEq]
    refine ⟨?_, ?_, trivial⟩
    · simp only [List.any_eq_false]
      intro h hmem
      simp only [List.mem_filter] at hmem
      simpa using hmem.2
    · simp only [List.length_eq_zero]
      rw [List.filter_filter]
      apply List.filter_eq_nil_iff.mpr
      intro c _
      simp

/-- C2 (code-bug exhibit): `routes.deploy_container` reserves its port
with `allocate_port(container_id=None)` (routes.py line 303) and never
links the slot to the lease id, so the slot's `container_id` stays
NULL.  The `LEFT JOIN containers c ON p.container_id = c.id` of
`cleanup_stale_port_allocations` then never matches the live lease, and
once the reservation is older than `STALE_PORT_MAX_AGE` the sweep
releases the slot even though a lease on that very port is still
present in the store (here: reservation made at time 0, sweep at time
4000 with max age 600, lease on port 9000 valid until 7200). -/
theorem stale_sweep_releases_live_lease_port :
    (allocate_port 5 none [] 0 [PortRow.mk 9000 false none none]).1 = some 9000 ∧
    (∃ c ∈ [ContainerRow.mk (str "c0ffee") 9000 0 7200 (str "user1") (str "1.2.3.4")],
        c.port = 9000 ∧ (4000 : Int) < c.expiration_time) ∧
    cleanup_stale_port_allocations 4000 600
        (allocate_port 5 none [] 0 [PortRow.mk 9000 false none none]).2
        [ContainerRow.mk (str "c0ffee") 9000 0 7200 (str "user1") (str "1.2.3.4")]
      = [PortRow.mk 9000 false none none] :=
  ⟨by decide, by decide, by decide⟩

/-- C5 counterexample: 127.0.0.2 is a loopback address, but
`check_ip_rate_limit` only exempts the literal string `"127.0.0.1"`,
so a client at 127.0.0.2 with three in-window rate events against a
limit of three is reported rate-limited, where the claim promises
loopback addresses always pass. -/
theorem rate_limit_loopback_cex :
    isLoopbackAddr (str "127.0.0.2") = true ∧
    check_ip_rate_limit (str "127.0.0.2") 1000 3600 3
      [IpRequestRow.mk (str "127.0.0.2") 999, IpRequestRow.mk (str "127.0.0.2") 998,
       IpRequestRow.mk (str "127.0.0.2") 997] [] = true :=
  ⟨by decide, by decide⟩

/-- C5 (amended): only the exact address string `"127.0.0.1"` (or an
empty address) bypasses the rate-limit check; for every other address —
including other loopback addresses such as 127.0.0.2 — the check
reports RATE_LIMITED exactly when in-window rate events plus active
leases for that address reach `MAX_CONTAINERS_PER_HOUR`. -/
theorem check_ip_rate_limit_correct (ip : Str) (now timeWindow : Int)
    (maxRequests : Nat) (reqs : List IpRequestRow)
    (containers : List ContainerRow) :
    ((ip = [] ∨ ip = str "127.0.0.1") →
      check_ip_rate_limit ip now timeWindow maxRequests reqs containers = false) ∧
    (¬(ip = [] ∨ ip = str "127.0.0.1") →
      (check_ip_rate_limit ip now timeWindow maxRequests reqs containers = true ↔
        maxRequests ≤ count_recent_requests reqs ip (now - timeWindow) +
          count_active_containers containers ip)) := by
  constructor
  · intro h
    rw [check_ip_rate_limit, check_ip_rate_limit_run, if_pos h]
    rfl
  · intro h
    rw [check_ip_rate_limit, check_ip_rate_limit_run, if_neg h]
    show decide _ = true ↔ _
    rw [decide_eq_true_iff]

/-- C5 witness: a non-loopback client with two in-window events against
a limit of two is rate-limited. -/
theorem check_ip_rate_limit_correct_witness :
    check_ip_rate_limit (str "9.9.9.9") 1000 3600 2
      [IpRequestRow.mk (str "9.9.9.9") 999, IpRequestRow.mk (str "9.9.9.9") 998] []
      = true :=
  ((check_ip_rate_limit_correct (str "9.9.9.9") 1000 3600 2
      [IpRequestRow.mk (str "9.9.9.9") 999, IpRequestRow.mk (str "9.9.9.9") 998] []).2
    (by decide)).mpr (by decide)

/-- C10: the rate-limit check fails open — if any of its store
statements raises (either count query, or the sampled prune), the
enclosing `try/except` makes `check_ip_rate_limit` return `False`
(not limited) instead of propagating the error. -/
theorem rate_limit_fails_open (ip : Str) (maxRequests : Nat)
    (requestCountQ activeCountQ : Except Unit Nat) (doPrune : Bool)
    (pruneQ : Except Unit Unit)
    (h : requestCountQ = Except.error () ∨ activeCountQ = Except.error () ∨
        (doPrune = true ∧ pruneQ = Except.error ())) :
    check_ip_rate_limit_run ip maxRequests requestCountQ activeCountQ doPrune pruneQ
      = false := by
  rw [check_ip_rate_limit_run]
  by_cases hip : ip = [] ∨ ip = str "127.0.0.1"
  · rw [if_pos hip]
    rfl
  · rw [if_neg hip]
    rcases h with h1 | h1 | ⟨h1, h2⟩
    · subst h1; rfl
    · subst h1
      cases requestCountQ with
      | error e => rfl
      | ok n => rfl
    · subst h1; subst h2
      cases requestCountQ with
      | error e => rfl
      | ok n =>
        cases activeCountQ with
        | error e => rfl
        | ok m => rfl

/-- C10 witness: a failing request-count query yields not-limited. -/
theorem rate_limit_fails_open_witness :
    check_ip_rate_limit_run (str "9.9.9.9") 0 (Except.error ()) (Except.ok 5)
      false (Except.ok ()) = false :=
  rate_limit_fails_open (str "9.9.9.9") 0 (Except.error ()) (Except.ok 5)
    false (Except.ok ()) (Or.inl rfl)

/-- C3 counterexample: a /deploy request with a non-empty owner cookie,
CAPTCHA bypass disabled and the CAPTCHA data missing, sent from a
client that is over the rate limit, is answered RATE_LIMITED (HTTP 429)
with the rate limiter consulted — not CAPTCHA_INVALID with the rate
limiter unconsulted, as the claim states.  The handler runs step 2
(rate limit) before step 3 (CAPTCHA). -/
theorem deploy_rate_limit_before_captcha_cex :
    deploy_admission (some (str "u1")) (str "1.2.3.4") true none none false false
      1000 3600 3
      [IpRequestRow.mk (str "1.2.3.4") 999, IpRequestRow.mk (str "1.2.3.4") 998,
       IpRequestRow.mk (str "1.2.3.4") 997] []
      = ⟨DeployOutcome.rateLimited, true, false⟩ := by decide

/-- C3 (amended): for a create request with a non-empty owner cookie
and CAPTCHA bypass disabled, the rate-limit check is evaluated before
the CAPTCHA check: a request whose client is over the limit is
rejected RATE_LIMITED without the CAPTCHA being consulted, and a
missing/wrong-CAPTCHA rejection can only occur for requests that
passed the rate-limit check (which was consulted). -/
theorem deploy_rate_limit_precedes_captcha (u remote_ip : Str) (hasJson : Bool)
    (captcha_id captcha_answer : Option Str) (captchaValid : Bool)
    (now timeWindow : Int) (maxRequests : Nat) (reqs : List IpRequestRow)
    (containers : List ContainerRow) :
    (check_ip_rate_limit remote_ip now timeWindow maxRequests reqs containers = true →
      deploy_admission (some u) remote_ip hasJson captcha_id captcha_answer false
          captchaValid now timeWindow maxRequests reqs containers
        = ⟨DeployOutcome.rateLimited, true, false⟩) ∧
    ((deploy_admission (some u) remote_ip hasJson captcha_id captcha_answer false
          captchaValid now timeWindow maxRequests reqs containers).outcome
          = DeployOutcome.captchaRequired ∨
      (deploy_admission (some u) remote_ip hasJson captcha_id captcha_answer false
          captchaValid now timeWindow maxRequests reqs containers).outcome
          = DeployOutcome.captchaIncorrect →
      check_ip_rate_limit remote_ip now timeWindow maxRequests reqs containers = false ∧
      (deploy_admission (some u) remote_ip hasJson captcha_id captcha_answer false
          captchaValid now timeWindow maxRequests reqs containers).rateLimitChecked
          = true) := by
  cases hrl : check_ip_rate_limit remote_ip now timeWindow maxRequests reqs containers with
  | true =>
    have hd : deploy_admission (some u) remote_ip hasJson captcha_id captcha_answer false
        captchaValid now timeWindow maxRequests reqs containers
        = ⟨DeployOutcome.rateLimited, true, false⟩ := by
      cases captcha_id <;> cases captcha_answer <;> cases hasJson <;> cases captchaValid <;>
        simp [deploy_admission, hrl]
    refine ⟨fun _ => hd, ?_⟩
    rw [hd]
    rintro (hout | hout) <;> simp at hout
  | false =>
    constructor
    · intro hcontra
      exact absurd hcontra (by simp)
    · intro _
      refine ⟨rfl, ?_⟩
      cases captcha_id <;> cases captcha_answer <;> cases hasJson <;> cases captchaValid <;>
        simp [deploy_admission, hrl]

/-- C3 witness: an over-limit client (two events, limit two) with valid
session and missing CAPTCHA is answered RATE_LIMITED. -/
theorem deploy_rate_limit_precedes_captcha_witness :
    deploy_admission (some (str "u2")) (str "5.6.7.8") true none none false false
      1000 3600 2
      [IpRequestRow.mk (str "5.6.7.8") 999, IpRequestRow.mk (str "5.6.7.8") 998] []
      = ⟨DeployOutcome.rateLimited, true, false⟩ :=
  (deploy_rate_limit_precedes_captcha (str "u2") (str "5.6.7.8") true none none false
      1000 3600 2
      [IpRequestRow.mk (str "5.6.7.8") 999, IpRequestRow.mk (str "5.6.7.8") 998] []).1
    (by decide)

/-- C4 counterexample: 172.5.0.1 is neither loopback nor in any RFC1918
range (the RFC1918 172-block is 172.16.0.0/12), yet `/admin/status`
authorizes it without a valid key, because its inline check accepts
every source address that merely starts with the string "172.". -/
theorem admin_status_172_bypass_cex :
    isLoopbackAddr (str "172.5.0.1") = false ∧
    isRFC1918Addr (str "172.5.0.1") = false ∧
    str "wrongkey" ≠ str "secretkey" ∧
    admin_status_authorized (str "wrongkey") (str "secretkey") (str "172.5.0.1") = true :=
  ⟨by decide, by decide, by decide, by decide⟩

/-- C4 (amended): for a source address that is neither loopback, nor in
an RFC1918 range, nor the literal string "localhost", a request whose
`admin_key` does not equal the configured value is answered 403 by
/metrics and /logs (`check_admin_auth`) — including non-RFC1918
sources in 172.0.0.0/8 such as 172.5.0.1, whose second octet
`is_local_network` checks correctly; `/admin/status` denies such a
request as well unless the address string starts with "172.", a whole
family its inline check additionally admits without a key. -/
theorem admin_auth_denies_nonlocal (admin_key expected_admin_key remote_addr : Str)
    (hloop : isLoopbackAddr remote_addr = false)
    (hrfc : isRFC1918Addr remote_addr = false)
    (hlocal : remote_addr ≠ str "localhost")
    (hkey : admin_key ≠ expected_admin_key) :
    check_admin_auth admin_key expected_admin_key remote_addr true = false ∧
    (List.isPrefixOf (str "172.") remote_addr = false →
      admin_status_authorized admin_key expected_admin_key remote_addr = false) := by
  have h127 : remote_addr ≠ str "127.0.0.1" := by
    intro he; rw [he] at hloop; exact absurd hloop (by decide)
  have hcolon : remote_addr ≠ str "::1" := by
    intro he; rw [he] at hloop; exact absurd hloop (by decide)
  have hrfc2 := hrfc
  rw [isRFC1918Addr] at hrfc2
  simp only [Bool.or_eq_false_iff] at hrfc2
  have h10 : List.isPrefixOf (str "10.") remote_addr = false := hrfc2.1.1
  have h192 : List.isPrefixOf (str "192.168.") remote_addr = false := hrfc2.1.2
  have h172sec : (List.isPrefixOf (str "172.") remote_addr &&
      second_octet_private remote_addr) = false := hrfc2.2
  have htriple : ¬(remote_addr = str "127.0.0.1" ∨ remote_addr = str "localhost" ∨
      remote_addr = str "::1") := by
    rintro (he | he | he)
    · exact h127 he
    · exact hlocal he
    · exact hcolon he
  have hlocnet : is_local_network remote_addr = false := by
    rw [is_local_network]
    by_cases hemp : remote_addr = []
    · rw [if_pos hemp]
    · rw [if_neg hemp, if_neg htriple]
      by_cases hp : List.isPrefixOf (str "172.") remote_addr = true
      · rw [hp] at h172sec
        simp only [Bool.true_and] at h172sec
        simp [h10, h192, hp, h172sec]
      · simp [h10, h192, hp]
  constructor
  · rw [check_admin_auth]
    rw [if_neg (fun hc => hkey hc.2)]
    simp [hlocnet]
  · intro h172
    have hnot : ¬((remote_addr = str "127.0.0.1" ∨ remote_addr = str "localhost" ∨
        remote_addr = str "::1") ∨ List.isPrefixOf (str "172.") remote_addr = true) := by
      rintro (he | he)
      · exact htriple he
      · rw [h172] at he
        exact absurd he (by simp)
    simp only [admin_status_authorized]
    split_ifs with h
    · rfl
    · exact absurd ⟨hnot, hkey⟩ h

/-- C4 witness: /metrics and /logs deny the non-RFC1918 source
172.5.0.1 with a wrong key (the very family `/admin/status` lets
through), and /admin/status denies a public source with a wrong key. -/
theorem admin_auth_denies_nonlocal_witness :
    check_admin_auth (str "aa") (str "bb") (str "172.5.0.1") true = false ∧
    admin_status_authorized (str "aa") (str "bb") (str "8.8.8.8") = false :=
  ⟨(admin_auth_denies_nonlocal (str "aa") (str "bb") (str "172.5.0.1")
      (by decide) (by decide) (by decide) (by decide)).1,
   (admin_auth_denies_nonlocal (str "aa") (str "bb") (str "8.8.8.8")
      (by decide) (by decide) (by decide) (by decide)).2 (by decide)⟩

/-! Helper lemmas for the extension path. -/

theorem map_eq_self_of_fixed {α : Type} {l : List α} {f : α → α}
    (h : ∀ a ∈ l, f a = a) : l.map f = l := by
  induction l with
  | nil => rfl
  | cons x xs ih =>
    rw [List.map_cons, h x (by simp), ih (fun a ha => h a (by simp [ha]))]

theorem find?_uuid_map (f : ContainerRow → ContainerRow)
    (hf : ∀ r, (f r).user_uuid = r.user_uuid) (u : Str) (st : List ContainerRow) :
    (st.map f).find? (fun c => decide (c.user_uuid = u)) =
      Option.map f (st.find? (fun c => decide (c.user_uuid = u))) := by
  induction st with
  | nil => rfl
  | cons r rest ih =>
    rw [List.map_cons]
    by_cases h : r.user_uuid = u
    · rw [List.find?_cons_of_pos _ (by rw [decide_eq_true_eq, hf r]; exact h),
        List.find?_cons_of_pos _ (by simp [h])]
      rfl
    · rw [List.find?_cons_of_neg _ (by rw [decide_eq_true_eq, hf r]; simpa using h),
        List.find?_cons_of_neg _ (by simp [h]), ih]

/-- C7: with id a primary key, N successful `/extend` calls by the same
owner turn the table into the original table with only the owner's
lease row changed, and changed only in `expiration_time`, which becomes
the creation-time value plus exactly N × ADD_TIME; no current-time
argument enters the computation. -/
theorem extend_adds_add_time_per_call (add_time : Int) (u : Str)
    (st : List ContainerRow) (c : ContainerRow)
    (hnodup : (st.map ContainerRow.id).Nodup)
    (hfind : st.find? (fun r => decide (r.user_uuid = u)) = some c)
    (n : Nat) :
    extendN add_time u n st = st.map (fun r =>
      if r.id = c.id then
        { r with expiration_time := c.expiration_time + (n : Int) * add_time }
      else r) := by
  have hc : c ∈ st := List.mem_of_find?_eq_some hfind
  induction n with
  | zero =>
    rw [extendN]
    refine (map_eq_self_of_fixed ?_).symm
    intro r hr
    by_cases hid : r.id = c.id
    · have : r = c := List.inj_on_of_nodup_map hnodup hr hc hid
      subst this
      simp
    · rw [if_neg hid]
  | succ m ih =>
    rw [extendN, ih, extend_container_lifetime,
      find?_uuid_map _ (fun r => by by_cases h : r.id = c.id <;> simp [h]) u st, hfind]
    dsimp only [Option.map]
    rw [if_pos rfl]
    dsimp only
    rw [List.map_map]
    apply List.map_congr_left
    intro r _
    by_cases hid : r.id = c.id
    · simp only [Function.comp_apply, if_pos hid]
      have harith : c.expiration_time + (m : Int) * add_time + add_time
          = c.expiration_time + ((m + 1 : Nat) : Int) * add_time := by
        push_cast
        ring
      simp [harith]
    · simp only [Function.comp_apply, if_neg hid]

/-- C7 witness: two extensions of a concrete single-row table add
exactly 2 × ADD_TIME to the stored expiry. -/
theorem extend_adds_add_time_per_call_witness :
    extendN 600 (str "u") 2
        [ContainerRow.mk (str "c1") 9000 0 1800 (str "u") (str "1.2.3.4")]
      = [ContainerRow.mk (str "c1") 9000 0 1800 (str "u") (str "1.2.3.4")].map (fun r =>
          if r.id = (ContainerRow.mk (str "c1") 9000 0 1800 (str "u") (str "1.2.3.4")).id then
            { r with expiration_time :=
                (ContainerRow.mk (str "c1") 9000 0 1800 (str "u") (str "1.2.3.4")).expiration_time
                  + ((2 : Nat) : Int) * 600 }
          else r) :=
  extend_adds_add_time_per_call 600 (str "u")
    [ContainerRow.mk (str "c1") 9000 0 1800 (str "u") (str "1.2.3.4")]
    (ContainerRow.mk (str "c1") 9000 0 1800 (str "u") (str "1.2.3.4"))
    (by decide) (by decide) 2

end CTF
